import Mathlib

/-!
Verification development for the chunked voxel world (greedy surface mesher
and asynchronous chunk streaming pipeline).

Shallow embedding conventions:
* `u32` values are modelled as `Nat`; where the Rust code performs an `as u32`
  cast or u32 arithmetic whose overflow matters, the truncation `% 2^32` is
  written explicitly (`u32cast`).  `usize` arithmetic in `coord_to_index` is
  modelled as exact `Nat` arithmetic: on every input domain quantified in the
  theorems below the Rust values stay far below `2^64`, so no wrap occurs.
* `f32` vectors that only ever carry small integer values (voxel coordinates,
  quad sizes, face normals) are modelled by integer vectors; general `f32`
  payloads (mesh vertices, colors) are modelled by exact rationals, with the
  decimal literals of the source read as exact decimal fractions.
* `Vec<Voxel>` is modelled as an index function together with its length;
  `HashMap`/`HashSet` are modelled as association lists / index bitsets.
* Functions that cannot fail are total; fallible lookups return `Option`.
-/

/-- glam::UVec3 — unsigned 32-bit 3-vector; components as `Nat`. -/
structure UVec3 where
  x : Nat
  y : Nat
  z : Nat
deriving DecidableEq

/-- glam::IVec3 — signed 32-bit 3-vector; components as `Int`. -/
structure IVec3 where
  x : Int
  y : Int
  z : Int
deriving DecidableEq

instance : Add IVec3 := ⟨fun a b => ⟨a.x + b.x, a.y + b.y, a.z + b.z⟩⟩

/-- glam's `UVec3::as_ivec3` (every u32 component fits in the Int). -/
def UVec3.as_ivec3 (v : UVec3) : IVec3 := ⟨v.x, v.y, v.z⟩

/-- glam's `IVec3::as_uvec3`; only used by the code under guards that ensure
all components are nonnegative, where the cast is the identity. -/
def IVec3.as_uvec3 (v : IVec3) : UVec3 := ⟨v.x.toNat, v.y.toNat, v.z.toNat⟩

/-- The `TryInto<UVec3>` conversion of an `IVec3`: succeeds exactly when every component is
nonnegative. -/
def IVec3.try_into_uvec3 (v : IVec3) : Option UVec3 :=
  if 0 ≤ v.x ∧ 0 ≤ v.y ∧ 0 ≤ v.z then some ⟨v.x.toNat, v.y.toNat, v.z.toNat⟩
  else none

/-- The `as u32` cast / u32 wrap-around. -/
def u32cast (n : Nat) : Nat := n % 4294967296

/-- src/utils.rs `coord_to_index`: flattening with x fastest, then y, then z.
The Rust code computes in `usize`; for every input considered in the theorems
below the exact value is below `2^64`, so plain `Nat` arithmetic is exact. -/
def coord_to_index (position size : UVec3) : Nat :=
  position.x + position.y * size.x + position.z * (size.x * size.y)

/-- src/utils.rs `index_to_coord`.  The source casts `index as u32` and
multiplies `size.x * size.y` in u32, so both truncations are modelled
explicitly.  (Inputs that make the u32 product wrap to `0` divide by zero and
panic in Rust; they are outside the domain of every theorem below.) -/
def index_to_coord (index : Nat) (size : UVec3) : UVec3 :=
  ⟨u32cast index % size.x,
   (u32cast index / size.x) % size.y,
   u32cast index / u32cast (size.x * size.y)⟩

/-- src/chunk.rs `Voxel`. -/
inductive Voxel
  | Air
  | Stone
  | Grass
  | Dirt
  | Water
  | Sand
deriving DecidableEq

/-- src/chunk.rs `VoxelColor = [f32; 4]`; the source's decimal literals are
modelled as exact decimal rationals. -/
structure VoxelColor where
  r : ℚ
  g : ℚ
  b : ℚ
  a : ℚ
deriving DecidableEq

/-- src/chunk.rs `impl Into<VoxelColor> for Voxel` (decimal f32 literals as
exact decimal fractions). -/
def Voxel.to_color : Voxel → VoxelColor
  | .Air => ⟨mkRat 0 1, mkRat 0 1, mkRat 0 1, mkRat 0 1⟩
  | .Stone => ⟨mkRat 69 100, mkRat 72 100, mkRat 72 100, mkRat 1 1⟩
  | .Grass => ⟨mkRat 23 100, mkRat 82 100, mkRat 24 100, mkRat 1 1⟩
  | .Dirt => ⟨mkRat 63 100, mkRat 45 100, mkRat 29 100, mkRat 1 1⟩
  | .Water => ⟨mkRat 0 1, mkRat 62 100, mkRat 1 1, mkRat 80 100⟩
  | .Sand => ⟨mkRat 93 100, mkRat 89 100, mkRat 55 100, mkRat 1 1⟩

/-- src/chunk.rs `Voxel::is_air`. -/
def Voxel.is_air (v : Voxel) : Bool := decide (v = Voxel.Air)

/-- src/chunk.rs `Voxel::is_liquid`. -/
def Voxel.is_liquid (v : Voxel) : Bool := decide (v = Voxel.Water)

/-- src/chunk.rs `Voxel::is_solid`. -/
def Voxel.is_solid (v : Voxel) : Bool := !v.is_air && !v.is_liquid

/-- src/chunk.rs `CHUNK_SIZE`. -/
def CHUNK_SIZE : UVec3 := ⟨16, 16, 16⟩

/-- src/chunk.rs `Chunk`.  The voxel storage `Vec<Voxel>` is modelled as the
index function `voxels` together with the explicit length `voxels_len`; the
derived world transform (position, identity rotation, unit scale) is
rendering-only state not touched by any claim and is not modelled. -/
structure Chunk where
  grid_position : UVec3
  size : UVec3
  voxels : Nat → Voxel
  voxels_len : Nat

/-- src/chunk.rs `Chunk::new`: allocates `CHUNK_SIZE.x * CHUNK_SIZE.y *
CHUNK_SIZE.z` air voxels (note: the allocation uses the global `CHUNK_SIZE`,
not the `size` argument). -/
def Chunk.new (grid_position size : UVec3) : Chunk :=
  { grid_position := grid_position
    size := size
    voxels := fun _ => Voxel.Air
    voxels_len := CHUNK_SIZE.x * CHUNK_SIZE.y * CHUNK_SIZE.z }

/-- src/chunk.rs `Chunk::get_voxel`: bounds-checks against the global
`CHUNK_SIZE`, then `self.voxels.get(index)`. -/
def Chunk.get_voxel (c : Chunk) (position : UVec3) : Option Voxel :=
  if position.x ≥ CHUNK_SIZE.x ∨ position.y ≥ CHUNK_SIZE.y ∨ position.z ≥ CHUNK_SIZE.z then
    none
  else
    let index := coord_to_index position CHUNK_SIZE
    if index < c.voxels_len then some (c.voxels index) else none

/-- src/chunk.rs `Chunk::set_voxel`: writes at the flattened index whenever
`self.voxels.get(index).is_some()`, i.e. whenever the index is in range of the
backing vector — there is no coordinate bounds check. -/
def Chunk.set_voxel (c : Chunk) (position : UVec3) (voxel : Voxel) : Chunk :=
  let index := coord_to_index position CHUNK_SIZE
  if index < c.voxels_len then
    { c with voxels := fun i => if i = index then voxel else c.voxels i }
  else c

/-- src/chunk/mesh.rs `Axis`. -/
inductive Axis
  | X
  | Y
  | Z
deriving DecidableEq

/-- src/chunk/mesh.rs `Direction`. -/
inductive Direction
  | Positive
  | Negative
deriving DecidableEq

/-- Exact rational 3-vector modelling `glam::Vec3` payloads whose arithmetic
in the source is exact in f32 (small integers and their sums). -/
structure Vec3q where
  x : ℚ
  y : ℚ
  z : ℚ
deriving DecidableEq

/-- Exact rational 2-vector modelling `glam::Vec2`. -/
structure Vec2q where
  x : ℚ
  y : ℚ
deriving DecidableEq

/-- src/chunk/mesh.rs `Axis::get_normal` (a unit f32 vector; exact). -/
def Axis.get_normal (a : Axis) (d : Direction) : Vec3q :=
  match a, d with
  | .X, .Positive => ⟨1, 0, 0⟩
  | .X, .Negative => ⟨-1, 0, 0⟩
  | .Y, .Positive => ⟨0, 1, 0⟩
  | .Y, .Negative => ⟨0, -1, 0⟩
  | .Z, .Positive => ⟨0, 0, 1⟩
  | .Z, .Negative => ⟨0, 0, -1⟩

/-- The source's `axis.get_normal(direction).as_ivec3()` — the normal as an integer
vector, as used for neighbour-cell and neighbour-chunk offsets. -/
def Axis.get_normal_ivec (a : Axis) (d : Direction) : IVec3 :=
  match a, d with
  | .X, .Positive => ⟨1, 0, 0⟩
  | .X, .Negative => ⟨-1, 0, 0⟩
  | .Y, .Positive => ⟨0, 1, 0⟩
  | .Y, .Negative => ⟨0, -1, 0⟩
  | .Z, .Positive => ⟨0, 0, 1⟩
  | .Z, .Negative => ⟨0, 0, -1⟩

/-- src/chunk/mesh.rs `Vertex` (positions/normals are f32 triples, colors
f32 quadruples; modelled by exact rationals). -/
structure Vertex where
  position : Vec3q
  normal : Vec3q
  color : VoxelColor
deriving DecidableEq

/-- src/chunk/mesh.rs `Mesh`: vertex list plus u32 index list. -/
structure Mesh where
  vertices : List Vertex
  indices : List Nat

/-- src/chunk/mesh.rs `Mesh::new`. -/
def Mesh.new : Mesh := ⟨[], []⟩

/-- src/chunk/mesh.rs `Mesh::is_empty`. -/
def Mesh.is_empty (m : Mesh) : Bool := m.vertices.isEmpty || m.indices.isEmpty

/-- src/chunk/mesh.rs `Mesh::add_quad`: appends 4 vertices and the 6 indices
of the two triangles.  `start_index` is `vertices.len() as u32` and the
increments are u32 additions, so the truncations are modelled explicitly. -/
def Mesh.add_quad (m : Mesh) (p1 p2 p3 p4 : Vec3q) (normal : Vec3q)
    (color : VoxelColor) : Mesh :=
  let start_index := u32cast m.vertices.length
  { vertices := m.vertices ++
      [⟨p1, normal, color⟩, ⟨p2, normal, color⟩, ⟨p3, normal, color⟩, ⟨p4, normal, color⟩]
    indices := m.indices ++
      [start_index, u32cast (start_index + 1), u32cast (start_index + 2),
       start_index, u32cast (start_index + 2), u32cast (start_index + 3)] }

/-- src/chunk/mesh.rs `Mesh::add_face`: builds the 4 corners of an
axis-aligned quad and delegates to `add_quad`. -/
def Mesh.add_face (m : Mesh) (position : Vec3q) (size : Vec2q) (axis : Axis)
    (direction : Direction) (color : VoxelColor) : Mesh :=
  let v : Vec3q × Vec3q × Vec3q × Vec3q :=
    match axis, direction with
    | .X, .Positive =>
      (⟨position.x, position.y, position.z + size.y⟩,
       ⟨position.x, position.y + size.x, position.z + size.y⟩,
       ⟨position.x, position.y + size.x, position.z⟩,
       ⟨position.x, position.y, position.z⟩)
    | .X, .Negative =>
      (⟨position.x, position.y, position.z⟩,
       ⟨position.x, position.y + size.x, position.z⟩,
       ⟨position.x, position.y + size.x, position.z + size.y⟩,
       ⟨position.x, position.y, position.z + size.y⟩)
    | .Y, .Positive =>
      (⟨position.x, position.y, position.z⟩,
       ⟨position.x + size.x, position.y, position.z⟩,
       ⟨position.x + size.x, position.y, position.z + size.y⟩,
       ⟨position.x, position.y, position.z + size.y⟩)
    | .Y, .Negative =>
      (⟨position.x, position.y, position.z⟩,
       ⟨position.x, position.y, position.z + size.y⟩,
       ⟨position.x + size.x, position.y, position.z + size.y⟩,
       ⟨position.x + size.x, position.y, position.z⟩)
    | .Z, .Positive =>
      (⟨position.x, position.y, position.z⟩,
       ⟨position.x, position.y + size.y, position.z⟩,
       ⟨position.x + size.x, position.y + size.y, position.z⟩,
       ⟨position.x + size.x, position.y, position.z⟩)
    | .Z, .Negative =>
      (⟨position.x, position.y, position.z⟩,
       ⟨position.x + size.x, position.y, position.z⟩,
       ⟨position.x + size.x, position.y + size.y, position.z⟩,
       ⟨position.x, position.y + size.y, position.z⟩)
  m.add_quad v.1 v.2.1 v.2.2.1 v.2.2.2 (axis.get_normal direction) color

/-- One call of `Mesh::add_quad` or `Mesh::add_face`, for stating properties
of every mesh built from `Mesh::new` by a sequence of such calls. -/
inductive MeshOp
  | quad (p1 p2 p3 p4 : Vec3q) (normal : Vec3q) (color : VoxelColor)
  | face (position : Vec3q) (size : Vec2q) (axis : Axis) (direction : Direction)
      (color : VoxelColor)

/-- Apply one `MeshOp` to a mesh. -/
def Mesh.apply_op (m : Mesh) : MeshOp → Mesh
  | .quad p1 p2 p3 p4 n c => m.add_quad p1 p2 p3 p4 n c
  | .face p s a d c => m.add_face p s a d c

/-- The mesh built from `Mesh::new` by a sequence of add-quad/add-face calls. -/
def Mesh.build (ops : List MeshOp) : Mesh := ops.foldl Mesh.apply_op Mesh.new

/-- The `HashMap<glam::UVec3, &Chunk>` partial neighbour map, modelled as an
association list. -/
abbrev NeighbourMap : Type := List (UVec3 × Chunk)

/-- Lookup (`HashMap::get`) on the neighbour map. -/
def NeighbourMap.get (m : NeighbourMap) (k : UVec3) : Option Chunk :=
  (List.find? (fun e => decide (e.1 = k)) m).map Prod.snd

/-- src/chunk.rs `ChunkMesher::has_neigbour`: resolves the neighbouring chunk
in the given face direction and tests `condition` on the voxel at the opposite
edge of that chunk; `false` when the neighbouring chunk coordinate is negative
(`try_into` fails), when the chunk is not in the map, or when the edge voxel
lookup fails. -/
def ChunkMesher.has_neigbour (chunk : Chunk) (chunk_neighbours : NeighbourMap)
    (voxel_position : UVec3) (axis : Axis) (direction : Direction)
    (condition : Voxel → Bool) : Bool :=
  let neighbour_chunk_position :=
    (chunk.grid_position.as_ivec3 + axis.get_normal_ivec direction).try_into_uvec3
  match neighbour_chunk_position with
  | none => false
  | some ncp =>
    match NeighbourMap.get chunk_neighbours ncp with
    | none => false
    | some neighbour_chunk =>
      let neighbour_position : UVec3 :=
        match axis, direction with
        | .X, .Positive => ⟨0, voxel_position.y, voxel_position.z⟩
        | .X, .Negative => ⟨chunk.size.x - 1, voxel_position.y, voxel_position.z⟩
        | .Y, .Positive => ⟨voxel_position.x, 0, voxel_position.z⟩
        | .Y, .Negative => ⟨voxel_position.x, chunk.size.y - 1, voxel_position.z⟩
        | .Z, .Positive => ⟨voxel_position.x, voxel_position.y, 0⟩
        | .Z, .Negative => ⟨voxel_position.x, voxel_position.y, chunk.size.z - 1⟩
      match neighbour_chunk.get_voxel neighbour_position with
      | some neighbour_voxel => condition neighbour_voxel
      | none => false

/-- One emitted quad of the greedy mesher, i.e. one `mesh.add_face` call:
base position (in chunk-local voxel units; the f32 vector is integral and
nonnegative here), in-plane size, axis, direction and flat color. -/
structure FaceCall where
  position : UVec3
  size : UVec3
  axis : Axis
  direction : Direction
  color : VoxelColor
deriving DecidableEq

/-- In-plane dimensions of a meshing pass (src/chunk.rs, `plane_dimensions`). -/
def plane_dimensions (axis : Axis) (size : UVec3) : Nat × Nat :=
  match axis with
  | .X => (size.y, size.z)
  | .Y => (size.x, size.z)
  | .Z => (size.x, size.y)

/-- The in-plane coordinates of a voxel position (src/chunk.rs, `plane`). -/
def plane_coords (axis : Axis) (p : UVec3) : Nat × Nat :=
  match axis with
  | .X => (p.y, p.z)
  | .Y => (p.x, p.z)
  | .Z => (p.x, p.y)

/-- Cell reached when the rectangle's first in-plane extent is `s`
(src/chunk.rs, `next_position` of the width-growth loop; also the
visited-marking order with `s` the first and `h` the second offset). -/
def grow_cell (axis : Axis) (p : UVec3) (s h : Nat) : UVec3 :=
  match axis with
  | .X => ⟨p.x, p.y + s, p.z + h⟩
  | .Y => ⟨p.x + s, p.y, p.z + h⟩
  | .Z => ⟨p.x + s, p.y + h, p.z⟩

/-- The greedy `while` loops of src/chunk.rs, as a fueled loop: extends the
extent by one while `ok` holds.  The guard condition `ok` always includes the
in-plane bound `plane + s < dims`, so a fuel of `dims` is never exhausted
before the guard fails and the loop is exactly the source's `while`. -/
def grow_loop (ok : Nat → Bool) : Nat → Nat → Nat
  | s, 0 => s
  | s, fuel + 1 => if ok s then grow_loop ok (s + 1) fuel else s

/-- The per-pass `visited` set (`HashSet<glam::UVec3>`), modelled as a bitset
over the chunk-local flattened index.  All inserted positions lie strictly
inside `CHUNK_SIZE` (they hold a voxel), where the index is injective, and a
colliding query position is always one whose voxel lookup fails, which the
source skips through the very next disjunct of the same condition — so the
bitset has exactly the behaviour of the source's hash set. -/
abbrev Visited : Type := Nat

/-- Membership test `visited.contains(&p)`. -/
def Visited.contains (vis : Visited) (p : UVec3) : Bool :=
  Nat.testBit vis (coord_to_index p CHUNK_SIZE)

/-- Insertion `visited.insert(p)`. -/
def Visited.insert (vis : Visited) (p : UVec3) : Visited :=
  Nat.lor vis (Nat.shiftLeft 1 (coord_to_index p CHUNK_SIZE))

/-- Accumulator of one greedy meshing pass: the visited set and the faces
emitted so far (in emission order). -/
structure PassAcc where
  visited : Visited
  faces : List FaceCall

/-- The face-visibility guard of src/chunk.rs `ChunkMesher::greedy_mesh` for
one candidate cell (`true` means the face is skipped): if the neighbouring
cell has a negative component, ask `has_neigbour`; otherwise read the
in-chunk neighbour and skip when it is not open; when the read fails
(positive out-of-bounds), ask `has_neigbour`.  The `condition` the source
passes to `has_neigbour` is the negation of `is_open` (literally
`|v| !v.is_air()`). -/
def greedy_skip (is_open : Voxel → Bool) (chunk : Chunk)
    (chunk_neighbours : NeighbourMap) (axis : Axis) (direction : Direction)
    (pos : UVec3) : Bool :=
  let neighbour_position := pos.as_ivec3 + axis.get_normal_ivec direction
  if neighbour_position.x < 0 ∨ neighbour_position.y < 0 ∨ neighbour_position.z < 0 then
    ChunkMesher.has_neigbour chunk chunk_neighbours pos axis direction
      (fun v => !(is_open v))
  else
    match chunk.get_voxel neighbour_position.as_uvec3 with
    | some neighbour => !(is_open neighbour)
    | none =>
      ChunkMesher.has_neigbour chunk chunk_neighbours pos axis direction
        (fun v => !(is_open v))

/-- The rectangle growth and quad emission of src/chunk.rs
`ChunkMesher::greedy_mesh` for one visible candidate cell: grow the first
in-plane extent cell by cell, then the second extent row by row, emit one
face, and mark the covered cells visited. -/
def greedy_emit (chunk : Chunk) (axis : Axis) (direction : Direction)
    (acc : PassAcc) (pos : UVec3) (voxel : Voxel) : PassAcc :=
  let dims := plane_dimensions axis chunk.size
  let plane := plane_coords axis pos
  let size_x := grow_loop
    (fun s => decide (plane.1 + s < dims.1) &&
      !(acc.visited.contains (grow_cell axis pos s 0)) &&
      decide (chunk.get_voxel (grow_cell axis pos s 0) = some voxel))
    1 dims.1
  let size_y := grow_loop
    (fun h => decide (plane.2 + h < dims.2) &&
      (List.range size_x).all (fun w =>
        !(acc.visited.contains (grow_cell axis pos w h)) &&
        decide (chunk.get_voxel (grow_cell axis pos w h) = some voxel)))
    1 dims.2
  let face_position : UVec3 :=
    match direction with
    | .Positive =>
      match axis with
      | .X => ⟨pos.x + 1, pos.y, pos.z⟩
      | .Y => ⟨pos.x, pos.y + 1, pos.z⟩
      | .Z => ⟨pos.x, pos.y, pos.z + 1⟩
    | .Negative => pos
  let face : FaceCall :=
    ⟨face_position, ⟨size_x, size_y, 0⟩, axis, direction, voxel.to_color⟩
  let visited := (List.range size_x).foldl (fun vis w =>
    (List.range size_y).foldl (fun vis h =>
      Visited.insert vis (grow_cell axis pos w h)) vis) acc.visited
  ⟨visited, acc.faces ++ [face]⟩

/-- The body of the innermost loop of src/chunk.rs `ChunkMesher::greedy_mesh`
for one local coordinate `pos`, parameterized (as in the spec, §4.2/§9) by
the two classifying predicates: `should_mesh` selects candidate voxels (the
source instantiates it with "is not air") and `is_open` tests whether the
voxel behind the face leaves it visible (the source instantiates it with
"is air"; the boundary helper `has_neigbour` receives its negation). -/
def greedy_cell (should_mesh is_open : Voxel → Bool) (chunk : Chunk)
    (chunk_neighbours : NeighbourMap) (axis : Axis) (direction : Direction)
    (acc : PassAcc) (pos : UVec3) : PassAcc :=
  if acc.visited.contains pos then acc
  else
    match chunk.get_voxel pos with
    | none => acc
    | some voxel =>
      if !(should_mesh voxel) then acc
      else if greedy_skip is_open chunk chunk_neighbours axis direction pos then acc
      else greedy_emit chunk axis direction acc pos voxel

/-- The local coordinates of one sweep, in the source's nested loop order
(x outermost, then y, then z). -/
def sweep_positions (size : UVec3) : List UVec3 :=
  (List.range size.x).flatMap (fun x =>
    (List.range size.y).flatMap (fun y =>
      (List.range size.z).map (fun z => ⟨x, y, z⟩)))

/-- The sweep of one pass: folds `greedy_cell` over the local coordinates in
sweep order (this is the nested `for` loops of src/chunk.rs).  The
intermediate match on the accumulator re-assembles it unchanged in every
branch — it only forces the evaluation of the visited set and the face list
at the head of each recursion step, keeping kernel reduction of concrete
runs shallow. -/
def greedy_sweep (should_mesh is_open : Voxel → Bool) (chunk : Chunk)
    (chunk_neighbours : NeighbourMap) (axis : Axis) (direction : Direction) :
    List UVec3 → Visited → List FaceCall → PassAcc
  | [], vis, faces => ⟨vis, faces⟩
  | p :: rest, vis, faces =>
    let next := greedy_cell should_mesh is_open chunk chunk_neighbours axis direction
      ⟨vis, faces⟩ p
    match next.visited, next.faces with
    | 0, [] =>
      greedy_sweep should_mesh is_open chunk chunk_neighbours axis direction rest 0 []
    | 0, f :: fs =>
      greedy_sweep should_mesh is_open chunk chunk_neighbours axis direction rest 0 (f :: fs)
    | v + 1, [] =>
      greedy_sweep should_mesh is_open chunk chunk_neighbours axis direction rest (v + 1) []
    | v + 1, f :: fs =>
      greedy_sweep should_mesh is_open chunk chunk_neighbours axis direction rest (v + 1) (f :: fs)

/-- One axis/direction pass of the greedy mesher: a fresh visited set, then
the sweep over all local coordinates. -/
def greedy_pass (should_mesh is_open : Voxel → Bool) (chunk : Chunk)
    (chunk_neighbours : NeighbourMap) (axis : Axis) (direction : Direction) :
    List FaceCall :=
  (greedy_sweep should_mesh is_open chunk chunk_neighbours axis direction
    (sweep_positions chunk.size) 0 []).faces

/-- src/chunk.rs `ChunkMesher::greedy_mesh`, as the ordered sequence of its
`mesh.add_face` calls: 6 passes (axes X, Y, Z; directions Positive then
Negative), concatenated in pass order.  Parameterized by the two classifying
predicates (§4.2); the source's hard-wired instantiation is
`greedy_mesh_faces` below. -/
def greedy_faces (should_mesh is_open : Voxel → Bool) (chunk : Chunk)
    (chunk_neighbours : NeighbourMap) : List FaceCall :=
  ([Axis.X, Axis.Y, Axis.Z].flatMap (fun axis =>
    [Direction.Positive, Direction.Negative].flatMap (fun direction =>
      greedy_pass should_mesh is_open chunk chunk_neighbours axis direction)))

/-- src/chunk.rs `ChunkMesher::greedy_mesh` with its literal predicates: a
candidate is any non-air voxel and a face is visible when the voxel behind it
is air. -/
def greedy_mesh_faces (chunk : Chunk) (chunk_neighbours : NeighbourMap) :
    List FaceCall :=
  greedy_faces (fun v => !v.is_air) Voxel.is_air chunk chunk_neighbours

/-- Conversion `UVec3::as_vec3` of a face-call position (integral, hence exact). -/
def UVec3.as_vec3q (v : UVec3) : Vec3q := ⟨v.x, v.y, v.z⟩

/-- src/chunk.rs `ChunkMesher::greedy_mesh` as a `Mesh`: the emitted face
calls folded through `Mesh::add_face` in emission order (`size.as_vec2()`
keeps the two in-plane extents). -/
def ChunkMesher.greedy_mesh (chunk : Chunk) (chunk_neighbours : NeighbourMap) :
    Mesh :=
  (greedy_mesh_faces chunk chunk_neighbours).foldl
    (fun m f => m.add_face f.position.as_vec3q ⟨f.size.x, f.size.y⟩ f.axis f.direction f.color)
    Mesh.new

/-- Modelled from the spec: the two-mesh `Chunk::mesh` called by
src/world.rs (`let (solid_mesh, transparent_mesh) = chunk.mesh(&neighbours)`)
is not under src/ — only this caller is.  Per §4.2/§3 of the spec, the single
greedy meshing algorithm is invoked twice with complementary predicate pairs:
once with (`is_solid`, not-solid) for the "opaque" mesh and once with
(`is_liquid`, `is_air`) for the "transparent" mesh, and either result may be
absent (`None`) when it contains no quads. -/
def Chunk.mesh (chunk : Chunk) (chunk_neighbours : NeighbourMap) :
    Option (List FaceCall) × Option (List FaceCall) :=
  let solid := greedy_faces Voxel.is_solid (fun v => !v.is_solid) chunk chunk_neighbours
  let transparent := greedy_faces Voxel.is_liquid Voxel.is_air chunk chunk_neighbours
  ((if solid.isEmpty then none else some solid),
   (if transparent.isEmpty then none else some transparent))

/-!
The streaming pipeline of src/world.rs.  src/world.rs belongs to a later
revision than src/chunk.rs: it keys chunks by `glam::IVec3` and calls
`Chunk::is_empty` and the two-mesh `Chunk::mesh`, none of which are under
src/.  The pipeline model therefore carries its own chunk record `WChunk`
(the fields src/world.rs uses), with the missing pieces modelled from the
spec.  Worker threads and the mpsc channels are modelled explicitly: a
dispatched job sits in a pending multiset until a worker step moves its
result onto the receiving channel queue; `try_recv` pops the queue head.
The mesh payload carried by a meshing job and its result (the snapshot of
chunk and neighbours, and the two optional meshes) does not affect any claim
about the pipeline, so jobs and results are tracked by their coordinate.
-/

/-- src/world.rs's view of a chunk: grid coordinate (an `IVec3` in this
revision) and voxel contents. -/
structure WChunk where
  grid_position : IVec3
  voxels : List Voxel
deriving DecidableEq

/-- Modelled from the spec: `Chunk::is_empty` is called by src/world.rs but
defined in a revision not under src/; per §3 of the spec a chunk is empty iff
every voxel is air. -/
def WChunk.is_empty (c : WChunk) : Bool := c.voxels.all Voxel.is_air

/-- Lookup in the `HashMap<IVec3, Chunk>` store (src/world.rs `self.chunks.get`). -/
def chunks_get (m : List (IVec3 × WChunk)) (k : IVec3) : Option WChunk :=
  (List.find? (fun e => decide (e.1 = k)) m).map Prod.snd

/-- Insert into the `HashMap<IVec3, Chunk>` store (replaces any previous entry). -/
def chunks_insert (m : List (IVec3 × WChunk)) (k : IVec3) (v : WChunk) :
    List (IVec3 × WChunk) :=
  (m.filter (fun e => !(decide (e.1 = k)))) ++ [(k, v)]

/-- src/world.rs `World` together with the in-flight worker jobs.
`gen_in_process` / `mesh_in_process` are the two `Channel::in_process` hash
sets; `gen_pending` / `mesh_pending` are the multisets of coordinates whose
spawned worker thread has not yet sent its result; `gen_channel` /
`mesh_channel` are the mpsc queues of sent-but-not-received results.  The
GPU-side mesh/uniform registries filled by `prepare_chunk_for_rendering` are
rendering state outside every claim and are not modelled. -/
structure World where
  render_distance : Nat
  chunks : List (IVec3 × WChunk)
  gen_in_process : List IVec3
  gen_pending : List IVec3
  gen_channel : List WChunk
  mesh_in_process : List IVec3
  mesh_pending : List IVec3
  mesh_channel : List IVec3

/-- src/world.rs `World::new`: empty store, empty channels, empty in-flight
sets. -/
def World.new (render_distance : Nat) : World :=
  ⟨render_distance, [], [], [], [], [], [], []⟩

/-- src/world.rs `World::get_neigbour_chunks`: the resident chunks at the 6
axis-unit offsets of a coordinate. -/
def World.get_neigbour_chunks (w : World) (chunk_position : IVec3) :
    List (IVec3 × WChunk) :=
  [Axis.X, Axis.Y, Axis.Z].flatMap (fun axis =>
    [Direction.Positive, Direction.Negative].flatMap (fun direction =>
      let neighbour_position := chunk_position + axis.get_normal_ivec direction
      match chunks_get w.chunks neighbour_position with
      | some neighbour => [(neighbour_position, neighbour)]
      | none => []))

/-- src/world.rs `World::mesh_chunk`: snapshots the chunk and its resident
neighbours and spawns a meshing job (tracked by its coordinate; no in-flight
check, no `in_process` update). -/
def World.mesh_chunk (w : World) (chunk : WChunk) : World :=
  { w with mesh_pending := w.mesh_pending ++ [chunk.grid_position] }

/-- Exact division of a rational by a natural number:
`div_nat q n = q / n` (proved below).  Written with `mkRat` so that concrete
pipeline runs reduce in the kernel. -/
def div_nat (q : ℚ) (n : Nat) : ℚ := mkRat q.num (q.den * n)

/-- src/world.rs: `(camera_position / chunk_size.as_vec3()).floor().as_ivec3()`.
The camera position (an f32 vector) is modelled as an exact rational
vector. -/
def center_chunk_pos (camera_position : Vec3q) (chunk_size : UVec3) : IVec3 :=
  ⟨⌊div_nat camera_position.x chunk_size.x⌋,
   ⌊div_nat camera_position.y chunk_size.y⌋,
   ⌊div_nat camera_position.z chunk_size.z⌋⟩

/-- The inclusive integer range `lo..=hi` as a list. -/
def int_range (lo hi : Int) : List Int :=
  (List.range (hi + 1 - lo).toNat).map (fun (i : Nat) => lo + (i : Int))

/-- The cubic set of grid coordinates within `render_distance` of `center`,
in the nested loop order of src/world.rs `World::update`. -/
def cube_coords (center : IVec3) (render_distance : Nat) : List IVec3 :=
  (int_range (center.x - render_distance) (center.x + render_distance)).flatMap (fun x =>
    (int_range (center.y - render_distance) (center.y + render_distance)).flatMap (fun y =>
      (int_range (center.z - render_distance) (center.z + render_distance)).map (fun z =>
        ⟨x, y, z⟩)))

/-- The dispatch guard of src/world.rs `World::update`:
`self.chunks.get(&chunk_pos).is_none() && !self.chunk_generator_channel.in_process.contains(&chunk_pos)`. -/
def wants_generation (w : World) (chunk_pos : IVec3) : Bool :=
  (chunks_get w.chunks chunk_pos).isNone && !(decide (chunk_pos ∈ w.gen_in_process))

/-- One step of the dispatch loop of src/world.rs `World::update`: if the
coordinate is neither resident nor in the generation in-flight set, add it to
the in-flight set and spawn a generation job. -/
def World.dispatch_one (w : World) (chunk_pos : IVec3) : World :=
  if wants_generation w chunk_pos then
    { w with gen_in_process := w.gen_in_process ++ [chunk_pos]
             gen_pending := w.gen_pending ++ [chunk_pos] }
  else w

/-- The dispatch phase of src/world.rs `World::update`: the triple loop over
the cube of coordinates around the camera's chunk position. -/
def World.dispatch_phase (w : World) (camera_position : Vec3q) (chunk_size : UVec3) :
    World :=
  (cube_coords (center_chunk_pos camera_position chunk_size) w.render_distance).foldl
    World.dispatch_one w

/-- The generation drain of src/world.rs `World::update`: `try_recv` at most
one generated chunk; on receipt remove its coordinate from the generation
in-flight set, schedule a meshing job unless the chunk is empty, re-schedule
meshing for every already-resident neighbour, then insert the chunk. -/
def World.drain_generated (w : World) : World :=
  match w.gen_channel with
  | [] => w
  | chunk :: rest =>
    let w := { w with gen_channel := rest
                      gen_in_process := w.gen_in_process.erase chunk.grid_position }
    let w := if !chunk.is_empty then w.mesh_chunk chunk else w
    let neighbours := w.get_neigbour_chunks chunk.grid_position
    let w := neighbours.foldl (fun w nb => w.mesh_chunk nb.2) w
    { w with chunks := chunks_insert w.chunks chunk.grid_position chunk }

/-- The meshing drain of src/world.rs `World::update`: `try_recv` at most one
meshing result and hand it to `prepare_chunk_for_rendering` (GPU-side state,
not modelled; the meshing in-flight set is not touched by the source
either). -/
def World.drain_meshed (w : World) : World :=
  match w.mesh_channel with
  | [] => w
  | _ :: rest => { w with mesh_channel := rest }

/-- src/world.rs `World::update`: dispatch generation jobs for the cube of
coordinates around the camera, then drain at most one generation result and
at most one meshing result. -/
def World.update (w : World) (camera_position : Vec3q) (chunk_size : UVec3) : World :=
  ((w.dispatch_phase camera_position chunk_size).drain_generated).drain_meshed

/-- A generation worker finishing its job for `chunk_pos`: the spawned thread
computes `generate_chunk` (the external terrain-generator collaborator,
abstracted as `gen`) and sends the chunk over the generation channel. -/
def World.complete_gen (w : World) (gen : IVec3 → WChunk) (chunk_pos : IVec3) : World :=
  if chunk_pos ∈ w.gen_pending then
    { w with gen_pending := w.gen_pending.erase chunk_pos
             gen_channel := w.gen_channel ++ [gen chunk_pos] }
  else w

/-- A meshing worker finishing its job for `chunk_pos`: sends the result over
the meshing channel. -/
def World.complete_mesh (w : World) (chunk_pos : IVec3) : World :=
  if chunk_pos ∈ w.mesh_pending then
    { w with mesh_pending := w.mesh_pending.erase chunk_pos
             mesh_channel := w.mesh_channel ++ [chunk_pos] }
  else w

/-- The reachable states of the streaming pipeline under an arbitrary driver
loop (any sequence of per-tick updates and worker completions), for a fixed
terrain generator `gen`. -/
inductive Reachable (gen : IVec3 → WChunk) : World → Prop
  | init (render_distance : Nat) : Reachable gen (World.new render_distance)
  | update {w : World} (camera_position : Vec3q) (chunk_size : UVec3) :
      Reachable gen w → Reachable gen (w.update camera_position chunk_size)
  | complete_gen {w : World} (chunk_pos : IVec3) :
      Reachable gen w → Reachable gen (w.complete_gen gen chunk_pos)
  | complete_mesh {w : World} (chunk_pos : IVec3) :
      Reachable gen w → Reachable gen (w.complete_mesh chunk_pos)

/-- The faces of a list with a given axis and direction. -/
def face_filter (a : Axis) (d : Direction) (faces : List FaceCall) : List FaceCall :=
  faces.filter (fun f => decide (f.axis = a ∧ f.direction = d))

/-- A `CHUNK_SIZE` chunk entirely Stone, at grid position (0,0,0). -/
def stone_chunk : Chunk :=
  { grid_position := ⟨0, 0, 0⟩
    size := CHUNK_SIZE
    voxels := fun _ => Voxel.Stone
    voxels_len := CHUNK_SIZE.x * CHUNK_SIZE.y * CHUNK_SIZE.z }

/-- A `CHUNK_SIZE` chunk entirely Air at grid position (1,0,0) — the +X
neighbour of `stone_chunk`. -/
def air_nbr : Chunk := Chunk.new ⟨1, 0, 0⟩ CHUNK_SIZE

/-- A `CHUNK_SIZE` chunk entirely Stone at grid position (1,0,0). -/
def stone_nbr : Chunk :=
  { grid_position := ⟨1, 0, 0⟩
    size := CHUNK_SIZE
    voxels := fun _ => Voxel.Stone
    voxels_len := CHUNK_SIZE.x * CHUNK_SIZE.y * CHUNK_SIZE.z }

/-- A chunk holding a 2×2×1 slab of Stone at the origin (all other cells
Air): voxels (0,0,0), (1,0,0), (0,1,0), (1,1,0).  Its +Z face is fully
exposed — every cell behind it, (x,y,1), is Air inside the same chunk. -/
def slab_chunk : Chunk :=
  ((((Chunk.new ⟨0, 0, 0⟩ CHUNK_SIZE).set_voxel ⟨0, 0, 0⟩ Voxel.Stone).set_voxel
    ⟨1, 0, 0⟩ Voxel.Stone).set_voxel ⟨0, 1, 0⟩ Voxel.Stone).set_voxel
    ⟨1, 1, 0⟩ Voxel.Stone

/-- A 1×1×1-sized chunk holding a single Stone voxel, away from the grid
origin so that all six neighbouring chunk coordinates exist. -/
def one_stone_chunk : Chunk :=
  (Chunk.new ⟨5, 5, 5⟩ ⟨1, 1, 1⟩).set_voxel ⟨0, 0, 0⟩ Voxel.Stone

/-- A 1×1×1-sized chunk holding a single Water voxel. -/
def one_water_chunk : Chunk :=
  (Chunk.new ⟨5, 5, 5⟩ ⟨1, 1, 1⟩).set_voxel ⟨0, 0, 0⟩ Voxel.Water

/-- A terrain generator producing a non-empty (single-Stone) chunk at every
coordinate — the simplest instance of the external generator collaborator. -/
def gen_stone : IVec3 → WChunk := fun pos => ⟨pos, [Voxel.Stone]⟩

/-- Camera at the world origin. -/
def cam_origin : Vec3q := ⟨mkRat 0 1, mkRat 0 1, mkRat 0 1⟩

/-- Camera at x = 16 (one chunk over, for chunk size 16). -/
def cam_x16 : Vec3q := ⟨mkRat 16 1, mkRat 0 1, mkRat 0 1⟩

/-- A five-step driver run with render distance 0 and chunk size 16:
tick at the origin (dispatches generation of (0,0,0)); that job completes;
tick at x = 16 (dispatches generation of (1,0,0) and drains chunk (0,0,0),
scheduling its meshing); the second job completes; tick again (drains chunk
(1,0,0), scheduling its meshing and re-scheduling the meshing of its
already-resident neighbour (0,0,0) — while (0,0,0)'s first meshing job is
still in flight). -/
def c3_run : World :=
  (((((World.new 0).update cam_origin CHUNK_SIZE).complete_gen gen_stone
    ⟨0, 0, 0⟩).update cam_x16 CHUNK_SIZE).complete_gen gen_stone
    ⟨1, 0, 0⟩).update cam_x16 CHUNK_SIZE

/-!  Theorems. -/

/-- C9 (counterexample): as literally stated — "for every index
`i < s.x·s.y·s.z`, `coord_to_index (index_to_coord i s) s = i`" — the claim
fails at size (2^31, 1, 4) and index 2^32: `index as u32` truncates the index
to 0, so the round trip returns 0. -/
theorem c9_roundtrip_fails_at_truncation :
    (4294967296 : Nat) <
      (UVec3.mk 2147483648 1 4).x * (UVec3.mk 2147483648 1 4).y * (UVec3.mk 2147483648 1 4).z ∧
    coord_to_index (index_to_coord 4294967296 ⟨2147483648, 1, 4⟩) ⟨2147483648, 1, 4⟩ ≠
      4294967296 := by
  constructor
  · decide
  · decide

/-- C9 (amended): the flattening is x fastest, then y, then z —
`coord_to_index p s = p.x + p.y·s.x + p.z·s.x·s.y` — and `index_to_coord` is
its inverse in both directions, provided `s.x·s.y·s.z < 2^32` so that the
`as u32` casts of the source truncate nothing. -/
theorem c9_coord_index_inverse (s : UVec3) (hs : s.x * s.y * s.z < 4294967296) :
    (∀ p : UVec3, p.x < s.x → p.y < s.y → p.z < s.z →
      coord_to_index p s = p.x + p.y * s.x + p.z * (s.x * s.y) ∧
      index_to_coord (coord_to_index p s) s = p) ∧
    (∀ i : Nat, i < s.x * s.y * s.z → coord_to_index (index_to_coord i s) s = i) := by
  obtain ⟨sx, sy, sz⟩ := s
  have hs' : sx * sy * sz < 4294967296 := hs
  constructor
  · rintro ⟨x, y, z⟩ hx hy hz
    have hx : x < sx := hx
    have hy : y < sy := hy
    have hz : z < sz := hz
    refine ⟨rfl, ?_⟩
    have hsz : 1 ≤ sz := Nat.one_le_iff_ne_zero.mpr (by rintro rfl; omega)
    have hA : x + y * sx < sx * sy := by
      have h1 : x + y * sx + 1 ≤ sx + y * sx := by omega
      have h2 : sx + y * sx = (y + 1) * sx := by ring
      have h3 : (y + 1) * sx ≤ sy * sx := Nat.mul_le_mul_right sx hy
      have h4 : sy * sx = sx * sy := Nat.mul_comm sy sx
      omega
    have hB : x + y * sx + z * (sx * sy) < sx * sy * sz := by
      have h1 : x + y * sx + z * (sx * sy) + 1 ≤ (z + 1) * (sx * sy) := by
        have : (z + 1) * (sx * sy) = z * (sx * sy) + sx * sy := by ring
        omega
      have h2 : (z + 1) * (sx * sy) ≤ sz * (sx * sy) := Nat.mul_le_mul_right _ hz
      have h3 : sz * (sx * sy) = sx * sy * sz := by ring
      omega
    have hxy : sx * sy < 4294967296 := by
      have : sx * sy * 1 ≤ sx * sy * sz := Nat.mul_le_mul_left _ hsz
      omega
    have hidx : x + y * sx + z * (sx * sy) < 4294967296 := by omega
    have hrw : x + y * sx + z * (sx * sy) = x + sx * (y + sy * z) := by ring
    simp only [index_to_coord, coord_to_index, u32cast,
      Nat.mod_eq_of_lt hidx, Nat.mod_eq_of_lt hxy]
    have hmod : (x + y * sx + z * (sx * sy)) % sx = x := by
      rw [hrw, Nat.add_mul_mod_self_left, Nat.mod_eq_of_lt hx]
    have hsx : 0 < sx := by omega
    have hdiv : (x + y * sx + z * (sx * sy)) / sx = y + sy * z := by
      rw [hrw, Nat.add_mul_div_left _ _ hsx, Nat.div_eq_of_lt hx]
      omega
    have hmod2 : (y + sy * z) % sy = y := by
      rw [Nat.add_mul_mod_self_left, Nat.mod_eq_of_lt hy]
    have hdiv2 : (x + y * sx + z * (sx * sy)) / (sx * sy) = z := by
      have h0 : 0 < sx * sy := by omega
      have : x + y * sx + z * (sx * sy) = (x + y * sx) + (sx * sy) * z := by ring
      rw [this, Nat.add_mul_div_left _ _ h0, Nat.div_eq_of_lt hA]
      omega
    rw [hmod, hdiv, hmod2, hdiv2]
  · intro i hi
    have hi : i < sx * sy * sz := hi
    have hi32 : i < 4294967296 := by omega
    have hsz : 1 ≤ sz := Nat.one_le_iff_ne_zero.mpr (by rintro rfl; omega)
    have hxy : sx * sy < 4294967296 := by
      have : sx * sy * 1 ≤ sx * sy * sz := Nat.mul_le_mul_left _ hsz
      omega
    simp only [index_to_coord, coord_to_index, u32cast,
      Nat.mod_eq_of_lt hi32, Nat.mod_eq_of_lt hxy]
    have e1 : sx * (i / sx) + i % sx = i := Nat.div_add_mod i sx
    have e2 : sy * (i / sx / sy) + (i / sx) % sy = i / sx := Nat.div_add_mod (i / sx) sy
    have e3 : i / sx / sy = i / (sx * sy) := Nat.div_div_eq_div_mul i sx sy
    have e2' : sy * (i / (sx * sy)) + (i / sx) % sy = i / sx := by rw [← e3]; exact e2
    calc i % sx + (i / sx) % sy * sx + i / (sx * sy) * (sx * sy)
        = (sy * (i / (sx * sy)) + (i / sx) % sy) * sx + i % sx := by ring
      _ = (i / sx) * sx + i % sx := by rw [e2']
      _ = sx * (i / sx) + i % sx := by ring
      _ = i := e1

/-- C9 (witness): the amended inverse laws at size (3,4,5), position (1,2,3)
and index 37. -/
theorem c9_coord_index_inverse_witness :
    index_to_coord (coord_to_index ⟨1, 2, 3⟩ ⟨3, 4, 5⟩) ⟨3, 4, 5⟩ = ⟨1, 2, 3⟩ ∧
    coord_to_index (index_to_coord 37 ⟨3, 4, 5⟩) ⟨3, 4, 5⟩ = 37 :=
  ⟨((c9_coord_index_inverse ⟨3, 4, 5⟩ (by decide)).1 ⟨1, 2, 3⟩ (by decide) (by decide)
      (by decide)).2,
   (c9_coord_index_inverse ⟨3, 4, 5⟩ (by decide)).2 37 (by decide)⟩

/-- C2 (code bug): `set_voxel` is claimed to be a no-op on out-of-range
input, but the source only guards the flattened index against the vector
length, and the flattening aliases out-of-range coordinates onto in-range
cells: writing at (16,0,0) — out of range on x — lands on flattened index 16,
which is cell (0,1,0), and changes the chunk. -/
theorem c2_set_voxel_out_of_range_aliases :
    (Chunk.new ⟨0, 0, 0⟩ CHUNK_SIZE).get_voxel ⟨0, 1, 0⟩ = some Voxel.Air ∧
    CHUNK_SIZE.x ≤ (16 : Nat) ∧
    ((Chunk.new ⟨0, 0, 0⟩ CHUNK_SIZE).set_voxel ⟨16, 0, 0⟩ Voxel.Stone).get_voxel ⟨0, 1, 0⟩ =
      some Voxel.Stone := by
  refine ⟨by decide, by decide, by decide⟩

/-- C7 (counterexample): as literally stated the bound is "the chunk's own
edge lengths", but `get_voxel` bounds-checks against the global `CHUNK_SIZE`:
for a chunk built with size (8,8,8), reading (10,0,0) — out of range for the
chunk's own sizes — still returns a voxel. -/
theorem c7_get_voxel_ignores_own_size :
    ((Chunk.new ⟨0, 0, 0⟩ ⟨8, 8, 8⟩).get_voxel ⟨10, 0, 0⟩).isSome = true ∧
    ¬ ((10 : Nat) < (Chunk.new ⟨0, 0, 0⟩ ⟨8, 8, 8⟩).size.x) := by
  refine ⟨by decide, by decide⟩

/-- C7 (amended): for every chunk whose backing vector has the allocated
length `CHUNK_SIZE.x·CHUNK_SIZE.y·CHUNK_SIZE.z` (every chunk `Chunk::new`
builds), `get_voxel p` returns a voxel iff `p` is within the global
`CHUNK_SIZE` bounds — which coincide with the chunk's own edge lengths
exactly when it is constructed with size `CHUNK_SIZE` — and `None` otherwise;
`get_voxel` is a total function (it never panics). -/
theorem c7_get_voxel_bounds (c : Chunk)
    (hlen : c.voxels_len = CHUNK_SIZE.x * CHUNK_SIZE.y * CHUNK_SIZE.z) (p : UVec3) :
    (∃ v, c.get_voxel p = some v) ↔
      (p.x < CHUNK_SIZE.x ∧ p.y < CHUNK_SIZE.y ∧ p.z < CHUNK_SIZE.z) := by
  obtain ⟨px, py, pz⟩ := p
  simp only [Chunk.get_voxel, coord_to_index, hlen, CHUNK_SIZE]
  constructor
  · intro ⟨v, hv⟩
    by_contra hout
    simp only [not_and_or, not_lt] at hout
    rw [if_pos (by simpa using hout)] at hv
    exact Option.noConfusion hv
  · rintro ⟨hx, hy, hz⟩
    rw [if_neg (by omega), if_pos (by omega)]
    exact ⟨_, rfl⟩

/-- C7 (witness): position (3,4,5) is readable in a freshly created chunk of
requested size (8,8,8). -/
theorem c7_get_voxel_bounds_witness :
    ∃ v, (Chunk.new ⟨0, 0, 0⟩ ⟨8, 8, 8⟩).get_voxel ⟨3, 4, 5⟩ = some v :=
  (c7_get_voxel_bounds (Chunk.new ⟨0, 0, 0⟩ ⟨8, 8, 8⟩) rfl ⟨3, 4, 5⟩).mpr (by decide)

/-- The call `add_quad` appends exactly 4 vertices. -/
theorem add_quad_vertices_length (m : Mesh) (p1 p2 p3 p4 normal : Vec3q)
    (color : VoxelColor) :
    (m.add_quad p1 p2 p3 p4 normal color).vertices.length = m.vertices.length + 4 := by
  simp [Mesh.add_quad]

/-- The call `add_quad` appends exactly 6 indices. -/
theorem add_quad_indices_length (m : Mesh) (p1 p2 p3 p4 normal : Vec3q)
    (color : VoxelColor) :
    (m.add_quad p1 p2 p3 p4 normal color).indices.length = m.indices.length + 6 := by
  simp [Mesh.add_quad]

/-- Every index `add_quad` appends is below the new vertex count. -/
theorem add_quad_indices_bound (m : Mesh) (p1 p2 p3 p4 normal : Vec3q)
    (color : VoxelColor) (i : Nat)
    (hi : i ∈ (m.add_quad p1 p2 p3 p4 normal color).indices) :
    i ∈ m.indices ∨ i < m.vertices.length + 4 := by
  simp only [Mesh.add_quad, List.mem_append, List.mem_cons, List.not_mem_nil, or_false] at hi
  rcases hi with h | h
  · exact Or.inl h
  · right
    simp only [u32cast] at h
    rcases h with rfl | rfl | rfl | rfl | rfl | rfl <;> omega

/-- Applying one op (an `add_quad` or `add_face` call) appends exactly 4 vertices. -/
theorem apply_op_vertices_length (m : Mesh) (op : MeshOp) :
    (m.apply_op op).vertices.length = m.vertices.length + 4 := by
  cases op with
  | quad p1 p2 p3 p4 n c => exact add_quad_vertices_length ..
  | face p s a d c => simp only [Mesh.apply_op, Mesh.add_face]; exact add_quad_vertices_length ..

/-- Applying one op appends exactly 6 indices. -/
theorem apply_op_indices_length (m : Mesh) (op : MeshOp) :
    (m.apply_op op).indices.length = m.indices.length + 6 := by
  cases op with
  | quad p1 p2 p3 p4 n c => exact add_quad_indices_length ..
  | face p s a d c => simp only [Mesh.apply_op, Mesh.add_face]; exact add_quad_indices_length ..

/-- Every index `apply_op` appends is below the new vertex count. -/
theorem apply_op_indices_bound (m : Mesh) (op : MeshOp) (i : Nat)
    (hi : i ∈ (m.apply_op op).indices) :
    i ∈ m.indices ∨ i < m.vertices.length + 4 := by
  cases op with
  | quad p1 p2 p3 p4 n c => exact add_quad_indices_bound _ _ _ _ _ _ _ _ hi
  | face p s a d c =>
    simp only [Mesh.apply_op, Mesh.add_face] at hi
    exact add_quad_indices_bound _ _ _ _ _ _ _ _ hi

/-- The fold invariant of `Mesh.build`, generalized over the start mesh. -/
theorem mesh_foldl_invariant (ops : List MeshOp) : ∀ (m : Mesh),
    (ops.foldl Mesh.apply_op m).vertices.length = m.vertices.length + 4 * ops.length ∧
    (ops.foldl Mesh.apply_op m).indices.length = m.indices.length + 6 * ops.length ∧
    ((∀ i ∈ m.indices, i < m.vertices.length) →
      ∀ i ∈ (ops.foldl Mesh.apply_op m).indices,
        i < (ops.foldl Mesh.apply_op m).vertices.length) := by
  induction ops with
  | nil => intro m; simp
  | cons op rest ih =>
    intro m
    obtain ⟨h1, h2, h3⟩ := ih (m.apply_op op)
    simp only [List.foldl_cons]
    refine ⟨?_, ?_, ?_⟩
    · rw [h1, apply_op_vertices_length]; simp [Nat.mul_succ]; omega
    · rw [h2, apply_op_indices_length]; simp [Nat.mul_succ]; omega
    · intro hm
      refine h3 ?_
      intro i hi
      rcases apply_op_indices_bound m op i hi with h | h
      · have := hm i h
        rw [apply_op_vertices_length]
        omega
      · rw [apply_op_vertices_length]
        omega

/-- C10: after any sequence of `add_face`/`add_quad` calls starting from
`Mesh::new` (q calls, one quad each), the mesh has exactly 4·q vertices and
6·q indices, every stored index is below the vertex count, and `is_empty`
holds iff q = 0. -/
theorem c10_mesh_build_well_formed (ops : List MeshOp) :
    (Mesh.build ops).vertices.length = 4 * ops.length ∧
    (Mesh.build ops).indices.length = 6 * ops.length ∧
    (∀ i ∈ (Mesh.build ops).indices, i < (Mesh.build ops).vertices.length) ∧
    ((Mesh.build ops).is_empty = true ↔ ops.length = 0) := by
  obtain ⟨h1, h2, h3⟩ := mesh_foldl_invariant ops Mesh.new
  have hv : (Mesh.build ops).vertices.length = 4 * ops.length := by
    rw [Mesh.build, h1]; simp [Mesh.new]
  have hidx : (Mesh.build ops).indices.length = 6 * ops.length := by
    rw [Mesh.build, h2]; simp [Mesh.new]
  refine ⟨hv, hidx, ?_, ?_⟩
  · exact h3 (by intro i hi; simp [Mesh.new] at hi)
  · rw [Mesh.is_empty, Bool.or_eq_true, List.isEmpty_iff, List.isEmpty_iff,
      ← List.length_eq_zero, ← List.length_eq_zero, hv, hidx]
    omega

/-- C10 (witness): the invariants evaluated after one `add_quad` call. -/
theorem c10_mesh_build_well_formed_witness :
    (0 : Nat) ∈ (Mesh.build [MeshOp.quad ⟨0, 0, 0⟩ ⟨1, 0, 0⟩ ⟨1, 1, 0⟩ ⟨0, 1, 0⟩ ⟨0, 0, 1⟩
      (Voxel.Stone.to_color)]).indices ∧
    0 < (Mesh.build [MeshOp.quad ⟨0, 0, 0⟩ ⟨1, 0, 0⟩ ⟨1, 1, 0⟩ ⟨0, 1, 0⟩ ⟨0, 0, 1⟩
      (Voxel.Stone.to_color)]).vertices.length :=
  ⟨by decide,
   (c10_mesh_build_well_formed [MeshOp.quad ⟨0, 0, 0⟩ ⟨1, 0, 0⟩ ⟨1, 1, 0⟩ ⟨0, 1, 0⟩ ⟨0, 0, 1⟩
      (Voxel.Stone.to_color)]).2.2.1 0 (by decide)⟩

/-- One `greedy_cell` step either leaves the face list unchanged or appends a
single face whose axis and direction are the pass's, and whose color is the
color of a voxel accepted by `should_mesh`. -/
theorem greedy_cell_faces (sm io : Voxel → Bool) (c : Chunk) (n : NeighbourMap)
    (a : Axis) (d : Direction) (acc : PassAcc) (p : UVec3) :
    (greedy_cell sm io c n a d acc p).faces = acc.faces ∨
    ∃ v face, sm v = true ∧ face.axis = a ∧ face.direction = d ∧
      face.color = v.to_color ∧
      (greedy_cell sm io c n a d acc p).faces = acc.faces ++ [face] := by
  unfold greedy_cell
  split
  · exact Or.inl rfl
  · split
    · exact Or.inl rfl
    · rename_i voxel _
      split
      · exact Or.inl rfl
      · rename_i hsm
        split
        · exact Or.inl rfl
        · right
          refine ⟨voxel, _, ?_, rfl, rfl, rfl, rfl⟩
          simp only [Bool.not_eq_true', Bool.not_eq_false] at hsm
          exact hsm

/-- Unfolding one step of `greedy_sweep`: the accumulator-forcing match is
transparent. -/
theorem greedy_sweep_cons (sm io : Voxel → Bool) (c : Chunk) (n : NeighbourMap)
    (a : Axis) (d : Direction) (p : UVec3) (rest : List UVec3) (vis : Visited)
    (faces : List FaceCall) :
    greedy_sweep sm io c n a d (p :: rest) vis faces =
      greedy_sweep sm io c n a d rest
        (greedy_cell sm io c n a d ⟨vis, faces⟩ p).visited
        (greedy_cell sm io c n a d ⟨vis, faces⟩ p).faces := by
  rcases h1 : (greedy_cell sm io c n a d ⟨vis, faces⟩ p).visited with _ | v <;>
    rcases h2 : (greedy_cell sm io c n a d ⟨vis, faces⟩ p).faces with _ | ⟨f, fs⟩ <;>
      simp [greedy_sweep, h1, h2]

/-- Every face in the output of a sweep is either an input face or a face of
this pass's axis/direction colored by a `should_mesh` voxel. -/
theorem greedy_sweep_faces_mem (sm io : Voxel → Bool) (c : Chunk) (n : NeighbourMap)
    (a : Axis) (d : Direction) :
    ∀ (l : List UVec3) (vis : Visited) (faces : List FaceCall) (f : FaceCall),
      f ∈ (greedy_sweep sm io c n a d l vis faces).faces →
      f ∈ faces ∨
        ∃ v, sm v = true ∧ f.axis = a ∧ f.direction = d ∧ f.color = v.to_color := by
  intro l
  induction l with
  | nil => intro vis faces f hf; exact Or.inl hf
  | cons p rest ih =>
    intro vis faces f hf
    rw [greedy_sweep_cons] at hf
    rcases ih _ _ f hf with h | h
    · rcases greedy_cell_faces sm io c n a d ⟨vis, faces⟩ p with hc | ⟨v, face, hv, ha, hd, hcol, hc⟩
      · rw [hc] at h; exact Or.inl h
      · rw [hc] at h
        rcases List.mem_append.mp h with h' | h'
        · exact Or.inl h'
        · right
          rcases List.mem_singleton.mp h' with rfl
          exact ⟨v, hv, ha, hd, hcol⟩
    · exact Or.inr h

/-- Every face a pass emits carries the pass's axis and direction and the
color of a voxel accepted by `should_mesh`. -/
theorem greedy_pass_faces_mem (sm io : Voxel → Bool) (c : Chunk) (n : NeighbourMap)
    (a : Axis) (d : Direction) (f : FaceCall)
    (hf : f ∈ greedy_pass sm io c n a d) :
    ∃ v, sm v = true ∧ f.axis = a ∧ f.direction = d ∧ f.color = v.to_color := by
  rcases greedy_sweep_faces_mem sm io c n a d _ _ _ f hf with h | h
  · exact absurd h (List.not_mem_nil f)
  · exact h

/-- The filter `face_filter` distributes over append. -/
theorem face_filter_append (a : Axis) (d : Direction) (l1 l2 : List FaceCall) :
    face_filter a d (l1 ++ l2) = face_filter a d l1 ++ face_filter a d l2 :=
  List.filter_append ..

/-- Filtering a pass by its own axis and direction keeps every face. -/
theorem face_filter_pass_self (sm io : Voxel → Bool) (c : Chunk) (n : NeighbourMap)
    (a : Axis) (d : Direction) :
    face_filter a d (greedy_pass sm io c n a d) = greedy_pass sm io c n a d := by
  apply List.filter_eq_self.mpr
  intro f hf
  rcases greedy_pass_faces_mem sm io c n a d f hf with ⟨v, _, ha, hd, _⟩
  simp [ha, hd]

/-- Filtering a pass by a different axis/direction removes every face. -/
theorem face_filter_pass_other (sm io : Voxel → Bool) (c : Chunk) (n : NeighbourMap)
    (a' d' a d) (h : ¬ (a' = a ∧ d' = d)) :
    face_filter a d (greedy_pass sm io c n a' d') = [] := by
  rw [face_filter, List.filter_eq_nil_iff]
  intro f hf
  rcases greedy_pass_faces_mem sm io c n a' d' f hf with ⟨v, _, ha, hd, _⟩
  simp [ha, hd, h]

/-- The faces of the full greedy mesh with a given axis and direction are
exactly the faces of the corresponding single pass. -/
theorem face_filter_greedy_faces (sm io : Voxel → Bool) (c : Chunk)
    (n : NeighbourMap) (a : Axis) (d : Direction) :
    face_filter a d (greedy_faces sm io c n) = greedy_pass sm io c n a d := by
  have expand : greedy_faces sm io c n =
      greedy_pass sm io c n Axis.X Direction.Positive ++
      (greedy_pass sm io c n Axis.X Direction.Negative ++
      (greedy_pass sm io c n Axis.Y Direction.Positive ++
      (greedy_pass sm io c n Axis.Y Direction.Negative ++
      (greedy_pass sm io c n Axis.Z Direction.Positive ++
      greedy_pass sm io c n Axis.Z Direction.Negative)))) := by
    simp [greedy_faces]
  rw [expand]
  cases a <;> cases d
  · rw [face_filter_append, face_filter_append, face_filter_append,
      face_filter_append, face_filter_append]
    rw [face_filter_pass_self]
    rw [face_filter_pass_other sm io c n Axis.X Direction.Negative Axis.X Direction.Positive (by simp)]
    rw [face_filter_pass_other sm io c n Axis.Y Direction.Positive Axis.X Direction.Positive (by simp)]
    rw [face_filter_pass_other sm io c n Axis.Y Direction.Negative Axis.X Direction.Positive (by simp)]
    rw [face_filter_pass_other sm io c n Axis.Z Direction.Positive Axis.X Direction.Positive (by simp)]
    rw [face_filter_pass_other sm io c n Axis.Z Direction.Negative Axis.X Direction.Positive (by simp)]
    simp
  · rw [face_filter_append, face_filter_append, face_filter_append,
      face_filter_append, face_filter_append]
    rw [face_filter_pass_other sm io c n Axis.X Direction.Positive Axis.X Direction.Negative (by simp)]
    rw [face_filter_pass_self]
    rw [face_filter_pass_other sm io c n Axis.Y Direction.Positive Axis.X Direction.Negative (by simp)]
    rw [face_filter_pass_other sm io c n Axis.Y Direction.Negative Axis.X Direction.Negative (by simp)]
    rw [face_filter_pass_other sm io c n Axis.Z Direction.Positive Axis.X Direction.Negative (by simp)]
    rw [face_filter_pass_other sm io c n Axis.Z Direction.Negative Axis.X Direction.Negative (by simp)]
    simp
  · rw [face_filter_append, face_filter_append, face_filter_append,
      face_filter_append, face_filter_append]
    rw [face_filter_pass_other sm io c n Axis.X Direction.Positive Axis.Y Direction.Positive (by simp)]
    rw [face_filter_pass_other sm io c n Axis.X Direction.Negative Axis.Y Direction.Positive (by simp)]
    rw [face_filter_pass_self]
    rw [face_filter_pass_other sm io c n Axis.Y Direction.Negative Axis.Y Direction.Positive (by simp)]
    rw [face_filter_pass_other sm io c n Axis.Z Direction.Positive Axis.Y Direction.Positive (by simp)]
    rw [face_filter_pass_other sm io c n Axis.Z Direction.Negative Axis.Y Direction.Positive (by simp)]
    simp
  · rw [face_filter_append, face_filter_append, face_filter_append,
      face_filter_append, face_filter_append]
    rw [face_filter_pass_other sm io c n Axis.X Direction.Positive Axis.Y Direction.Negative (by simp)]
    rw [face_filter_pass_other sm io c n Axis.X Direction.Negative Axis.Y Direction.Negative (by simp)]
    rw [face_filter_pass_other sm io c n Axis.Y Direction.Positive Axis.Y Direction.Negative (by simp)]
    rw [face_filter_pass_self]
    rw [face_filter_pass_other sm io c n Axis.Z Direction.Positive Axis.Y Direction.Negative (by simp)]
    rw [face_filter_pass_other sm io c n Axis.Z Direction.Negative Axis.Y Direction.Negative (by simp)]
    simp
  · rw [face_filter_append, face_filter_append, face_filter_append,
      face_filter_append, face_filter_append]
    rw [face_filter_pass_other sm io c n Axis.X Direction.Positive Axis.Z Direction.Positive (by simp)]
    rw [face_filter_pass_other sm io c n Axis.X Direction.Negative Axis.Z Direction.Positive (by simp)]
    rw [face_filter_pass_other sm io c n Axis.Y Direction.Positive Axis.Z Direction.Positive (by simp)]
    rw [face_filter_pass_other sm io c n Axis.Y Direction.Negative Axis.Z Direction.Positive (by simp)]
    rw [face_filter_pass_self]
    rw [face_filter_pass_other sm io c n Axis.Z Direction.Negative Axis.Z Direction.Positive (by simp)]
    simp
  · rw [face_filter_append, face_filter_append, face_filter_append,
      face_filter_append, face_filter_append]
    rw [face_filter_pass_other sm io c n Axis.X Direction.Positive Axis.Z Direction.Negative (by simp)]
    rw [face_filter_pass_other sm io c n Axis.X Direction.Negative Axis.Z Direction.Negative (by simp)]
    rw [face_filter_pass_other sm io c n Axis.Y Direction.Positive Axis.Z Direction.Negative (by simp)]
    rw [face_filter_pass_other sm io c n Axis.Y Direction.Negative Axis.Z Direction.Negative (by simp)]
    rw [face_filter_pass_other sm io c n Axis.Z Direction.Positive Axis.Z Direction.Negative (by simp)]
    rw [face_filter_pass_self]
    simp

/-- Every face the (predicate-parameterized) greedy mesher emits carries the
color of a voxel accepted by `should_mesh`. -/
theorem greedy_faces_mem (sm io : Voxel → Bool) (c : Chunk) (n : NeighbourMap)
    (f : FaceCall) (hf : f ∈ greedy_faces sm io c n) :
    ∃ v, sm v = true ∧ f.color = v.to_color := by
  simp only [greedy_faces, List.mem_flatMap] at hf
  obtain ⟨a, -, d, -, hf⟩ := hf
  obtain ⟨v, hv, -, -, hcol⟩ := greedy_pass_faces_mem sm io c n a d f hf
  exact ⟨v, hv, hcol⟩

/-- C4: the per-chunk meshing operation runs the single greedy algorithm
twice, with the complementary predicate pairs (`is_solid`, not-solid) and
(`is_liquid`, `is_air`), producing an "opaque" and a "transparent" mesh,
either of which is absent when it has no quads; every face of the opaque mesh
is a face of a solid voxel and every face of the transparent mesh is a face
of a liquid voxel. -/
theorem c4_mesh_two_predicate_pairs (c : Chunk) (n : NeighbourMap) :
    (c.mesh n).1 = (if (greedy_faces Voxel.is_solid (fun v => !v.is_solid) c n).isEmpty
      then none else some (greedy_faces Voxel.is_solid (fun v => !v.is_solid) c n)) ∧
    (c.mesh n).2 = (if (greedy_faces Voxel.is_liquid Voxel.is_air c n).isEmpty
      then none else some (greedy_faces Voxel.is_liquid Voxel.is_air c n)) ∧
    (∀ faces, (c.mesh n).1 = some faces →
      ∀ f ∈ faces, ∃ v : Voxel, v.is_solid = true ∧ f.color = v.to_color) ∧
    (∀ faces, (c.mesh n).2 = some faces →
      ∀ f ∈ faces, ∃ v : Voxel, v.is_liquid = true ∧ f.color = v.to_color) := by
  refine ⟨rfl, rfl, ?_, ?_⟩
  · intro faces hf f hfm
    rw [Chunk.mesh] at hf
    simp only at hf
    split at hf
    · exact Option.noConfusion hf
    · injection hf with h
      subst h
      exact greedy_faces_mem _ _ c n f hfm
  · intro faces hf f hfm
    rw [Chunk.mesh] at hf
    simp only at hf
    split at hf
    · exact Option.noConfusion hf
    · injection hf with h
      subst h
      exact greedy_faces_mem _ _ c n f hfm

/-- C4 (witness): at a 1×1×1-sized chunk holding one Stone (resp. Water)
voxel with no neighbours, the opaque (resp. transparent) mesh is present and
its faces are solid- (resp. liquid-) colored. -/
theorem c4_mesh_two_predicate_pairs_witness :
    (∃ v : Voxel, v.is_solid = true ∧
      (FaceCall.mk ⟨1, 0, 0⟩ ⟨1, 1, 0⟩ Axis.X Direction.Positive
        Voxel.Stone.to_color).color = v.to_color) ∧
    (∃ v : Voxel, v.is_liquid = true ∧
      (FaceCall.mk ⟨1, 0, 0⟩ ⟨1, 1, 0⟩ Axis.X Direction.Positive
        Voxel.Water.to_color).color = v.to_color) :=
  ⟨(c4_mesh_two_predicate_pairs one_stone_chunk []).2.2.1
    [⟨⟨1, 0, 0⟩, ⟨1, 1, 0⟩, Axis.X, Direction.Positive, Voxel.Stone.to_color⟩,
     ⟨⟨0, 0, 0⟩, ⟨1, 1, 0⟩, Axis.X, Direction.Negative, Voxel.Stone.to_color⟩,
     ⟨⟨0, 1, 0⟩, ⟨1, 1, 0⟩, Axis.Y, Direction.Positive, Voxel.Stone.to_color⟩,
     ⟨⟨0, 0, 0⟩, ⟨1, 1, 0⟩, Axis.Y, Direction.Negative, Voxel.Stone.to_color⟩,
     ⟨⟨0, 0, 1⟩, ⟨1, 1, 0⟩, Axis.Z, Direction.Positive, Voxel.Stone.to_color⟩,
     ⟨⟨0, 0, 0⟩, ⟨1, 1, 0⟩, Axis.Z, Direction.Negative, Voxel.Stone.to_color⟩]
    (by decide) _ (by decide),
   (c4_mesh_two_predicate_pairs one_water_chunk []).2.2.2
    [⟨⟨1, 0, 0⟩, ⟨1, 1, 0⟩, Axis.X, Direction.Positive, Voxel.Water.to_color⟩,
     ⟨⟨0, 0, 0⟩, ⟨1, 1, 0⟩, Axis.X, Direction.Negative, Voxel.Water.to_color⟩,
     ⟨⟨0, 1, 0⟩, ⟨1, 1, 0⟩, Axis.Y, Direction.Positive, Voxel.Water.to_color⟩,
     ⟨⟨0, 0, 0⟩, ⟨1, 1, 0⟩, Axis.Y, Direction.Negative, Voxel.Water.to_color⟩,
     ⟨⟨0, 0, 1⟩, ⟨1, 1, 0⟩, Axis.Z, Direction.Positive, Voxel.Water.to_color⟩,
     ⟨⟨0, 0, 0⟩, ⟨1, 1, 0⟩, Axis.Z, Direction.Negative, Voxel.Water.to_color⟩]
    (by decide) _ (by decide)⟩

set_option maxRecDepth 100000
set_option maxHeartbeats 12000000

/-- The +X faces of the all-Stone chunk meshed with an empty neighbour map:
one full 16×16 boundary quad (the absent +X neighbour does not suppress the
face). -/
theorem stone_chunk_plus_x_quads :
    face_filter Axis.X Direction.Positive (greedy_mesh_faces stone_chunk []) =
      [⟨⟨16, 0, 0⟩, ⟨16, 16, 0⟩, Axis.X, Direction.Positive, Voxel.Stone.to_color⟩] := by
  rw [greedy_mesh_faces, face_filter_greedy_faces]
  decide

/-- C1 (counterexample): as literally stated — "a chunk entirely Stone with
no entry for +X in the neighbour map emits no quads on its +X boundary face"
— the claim is false: the mesher emits the full +X boundary quad. -/
theorem c1_absent_neighbour_emits_quads :
    face_filter Axis.X Direction.Positive (greedy_mesh_faces stone_chunk []) ≠ [] := by
  rw [stone_chunk_plus_x_quads]
  simp

/-- C1 (amended): when a candidate face's neighbour cell lies outside the
chunk and the neighbouring chunk in that direction is not present in the map,
`has_neigbour` reports no covering neighbour, so the face IS emitted (the
boundary is treated as open, not covered); in particular a chunk entirely
Stone with no entry for +X emits its full 16×16 +X boundary quad. -/
theorem c1_absent_neighbour_face_emitted :
    (∀ (chunk : Chunk) (nbrs : NeighbourMap) (pos : UVec3) (axis : Axis)
        (direction : Direction) (condition : Voxel → Bool),
      (∀ ncp, (chunk.grid_position.as_ivec3 + axis.get_normal_ivec direction).try_into_uvec3 =
          some ncp → NeighbourMap.get nbrs ncp = none) →
      ChunkMesher.has_neigbour chunk nbrs pos axis direction condition = false) ∧
    face_filter Axis.X Direction.Positive (greedy_mesh_faces stone_chunk []) =
      [⟨⟨16, 0, 0⟩, ⟨16, 16, 0⟩, Axis.X, Direction.Positive, Voxel.Stone.to_color⟩] := by
  constructor
  · intro chunk nbrs pos axis direction condition h
    unfold ChunkMesher.has_neigbour
    cases htry : (chunk.grid_position.as_ivec3 + axis.get_normal_ivec direction).try_into_uvec3 with
    | none => simp only [htry]
    | some ncp => simp only [htry, h ncp htry]
  · exact stone_chunk_plus_x_quads

/-- C1 (witness): `has_neigbour` at the all-Stone chunk with the empty map. -/
theorem c1_absent_neighbour_face_emitted_witness :
    ChunkMesher.has_neigbour stone_chunk [] ⟨15, 0, 0⟩ Axis.X Direction.Positive
      (fun v => !v.is_air) = false :=
  c1_absent_neighbour_face_emitted.1 stone_chunk [] ⟨15, 0, 0⟩ Axis.X Direction.Positive
    (fun v => !v.is_air) (fun _ _ => rfl)

/-- C5: the all-Stone chunk meshed with its +X neighbour present and entirely
Air emits exactly one +X quad covering the full sizeY×sizeZ (16×16) extent;
with the +X neighbour present and entirely Stone it emits no +X quad. -/
theorem c5_known_neighbour_boundary :
    face_filter Axis.X Direction.Positive
        (greedy_mesh_faces stone_chunk [(⟨1, 0, 0⟩, air_nbr)]) =
      [⟨⟨16, 0, 0⟩, ⟨16, 16, 0⟩, Axis.X, Direction.Positive, Voxel.Stone.to_color⟩] ∧
    face_filter Axis.X Direction.Positive
        (greedy_mesh_faces stone_chunk [(⟨1, 0, 0⟩, stone_nbr)]) = [] := by
  constructor
  · rw [greedy_mesh_faces, face_filter_greedy_faces]
    decide
  · rw [greedy_mesh_faces, face_filter_greedy_faces]
    decide

/-- C6: a 2×2×1 slab of Stone fully exposed on its +Z face produces exactly
one 2×2 quad there (grown greedily: first along x, then row-by-row along y),
not four 1×1 quads. -/
theorem c6_greedy_merges_slab :
    face_filter Axis.Z Direction.Positive (greedy_mesh_faces slab_chunk []) =
      [⟨⟨0, 0, 1⟩, ⟨2, 2, 0⟩, Axis.Z, Direction.Positive, Voxel.Stone.to_color⟩] := by
  rw [greedy_mesh_faces, face_filter_greedy_faces]
  decide

/-- The helper `div_nat` is exact rational division by a natural number. -/
theorem div_nat_eq (q : ℚ) (n : Nat) : div_nat q n = q / (n : ℚ) := by
  rw [div_nat, Rat.mkRat_eq_div]
  push_cast
  rw [← Rat.num_div_den q, div_div]
  rw [Rat.num_div_den q]

/-- The range `int_range` has no duplicates. -/
theorem int_range_nodup (lo hi : Int) : (int_range lo hi).Nodup := by
  rw [int_range]
  refine List.Nodup.map ?_ (List.nodup_range _)
  intro a b h
  exact Nat.cast_injective (add_left_cancel h)

/-- A flatMap is duplicate-free when the outer list is, each block is, and a
discriminator `g` recovers the outer element from each inner one. -/
theorem nodup_flatMap_disc {α β : Type} (g : β → α) (xs : List α) (f : α → List β)
    (hxs : xs.Nodup) (hdisc : ∀ x, ∀ b ∈ f x, g b = x) (hn : ∀ x, (f x).Nodup) :
    (xs.flatMap f).Nodup := by
  induction xs with
  | nil => simp
  | cons x rest ih =>
    obtain ⟨hx, hrest⟩ := List.nodup_cons.mp hxs
    rw [List.flatMap_cons, List.nodup_append]
    refine ⟨hn x, ih hrest, ?_⟩
    intro b hb hb'
    rw [List.mem_flatMap] at hb'
    obtain ⟨y, hy, hby⟩ := hb'
    have h1 := hdisc x b hb
    have h2 := hdisc y b hby
    rw [h1] at h2
    rw [← h2] at hy
    exact hx hy

/-- The cube of coordinates around a center has no duplicates. -/
theorem cube_coords_nodup (center : IVec3) (rd : Nat) :
    (cube_coords center rd).Nodup := by
  rw [cube_coords]
  refine nodup_flatMap_disc (fun v : IVec3 => v.x) _ _ (int_range_nodup _ _) ?_ ?_
  · intro x b hb
    simp only [List.mem_flatMap, List.mem_map] at hb
    obtain ⟨y, -, z, -, rfl⟩ := hb
    rfl
  · intro x
    refine nodup_flatMap_disc (fun v : IVec3 => v.y) _ _ (int_range_nodup _ _) ?_ ?_
    · intro y b hb
      simp only [List.mem_map] at hb
      obtain ⟨z, -, rfl⟩ := hb
      rfl
    · intro y
      refine List.Nodup.map ?_ (int_range_nodup _ _)
      intro a b h
      injection h

/-- The dispatch loop over a duplicate-free coordinate list appends exactly
the coordinates passing the dispatch guard (with respect to the starting
state) to both the generation in-flight set and the spawned-job list, and
changes nothing else. -/
theorem dispatch_foldl_spec (L : List IVec3) : ∀ (w : World), L.Nodup →
    L.foldl World.dispatch_one w =
      { w with
        gen_in_process := w.gen_in_process ++ L.filter (wants_generation w)
        gen_pending := w.gen_pending ++ L.filter (wants_generation w) } := by
  induction L with
  | nil =>
    intro w _
    simp
  | cons c rest ih =>
    intro w hnd
    obtain ⟨hc, hrest⟩ := List.nodup_cons.mp hnd
    rw [List.foldl_cons]
    by_cases hfree : wants_generation w c = true
    · have hstep : w.dispatch_one c =
          { w with gen_in_process := w.gen_in_process ++ [c]
                   gen_pending := w.gen_pending ++ [c] } := by
        rw [World.dispatch_one, if_pos hfree]
      rw [hstep, ih _ hrest]
      have hfilter : rest.filter (wants_generation
          { w with gen_in_process := w.gen_in_process ++ [c]
                   gen_pending := w.gen_pending ++ [c] }) =
          rest.filter (wants_generation w) := by
        apply List.filter_congr
        intro d hd
        have hdc : d ≠ c := by
          intro h
          rw [h] at hd
          exact hc hd
        simp only [wants_generation, chunks_get, List.mem_append, List.mem_singleton]
        have : (d ∈ w.gen_in_process ∨ d = c) ↔ d ∈ w.gen_in_process := by
          constructor
          · rintro (h | h)
            · exact h
            · exact absurd h hdc
          · exact Or.inl
        rw [decide_eq_decide.mpr this]
      rw [hfilter]
      have hhead : (c :: rest).filter (wants_generation w) =
          c :: rest.filter (wants_generation w) := by
        rw [List.filter_cons_of_pos hfree]
      rw [hhead]
      simp [List.append_assoc]
    · have hstep : w.dispatch_one c = w := by
        rw [World.dispatch_one, if_neg hfree]
      rw [hstep, ih _ hrest]
      rw [List.filter_cons_of_neg (by simpa using hfree)]

/-- Re-scheduling meshing for a list of neighbours only appends meshing
jobs; every other pipeline field is untouched. -/
theorem foldl_mesh_chunk_fields (ns : List (IVec3 × WChunk)) : ∀ (w : World),
    (ns.foldl (fun w nb => w.mesh_chunk nb.2) w).gen_channel = w.gen_channel ∧
    (ns.foldl (fun w nb => w.mesh_chunk nb.2) w).mesh_channel = w.mesh_channel ∧
    (ns.foldl (fun w nb => w.mesh_chunk nb.2) w).gen_pending = w.gen_pending ∧
    (ns.foldl (fun w nb => w.mesh_chunk nb.2) w).mesh_in_process = w.mesh_in_process ∧
    (ns.foldl (fun w nb => w.mesh_chunk nb.2) w).chunks = w.chunks ∧
    (ns.foldl (fun w nb => w.mesh_chunk nb.2) w).gen_in_process = w.gen_in_process := by
  induction ns with
  | nil => intro w; exact ⟨rfl, rfl, rfl, rfl, rfl, rfl⟩
  | cons nb rest ih =>
    intro w
    simp only [List.foldl_cons]
    exact ih (w.mesh_chunk nb.2)

/-- Draining one generation result pops at most the head of the generation
channel and leaves the meshing channel, the spawned-generation-job list and
the meshing in-flight set untouched. -/
theorem drain_generated_fields (w : World) :
    (w.drain_generated).gen_channel = w.gen_channel.tail ∧
    (w.drain_generated).mesh_channel = w.mesh_channel ∧
    (w.drain_generated).gen_pending = w.gen_pending ∧
    (w.drain_generated).mesh_in_process = w.mesh_in_process := by
  cases hq : w.gen_channel with
  | nil => simp [World.drain_generated, hq]
  | cons ch rest =>
    simp only [World.drain_generated, hq]
    set w1 : World := { w with gen_channel := rest
                               gen_in_process := w.gen_in_process.erase ch.grid_position } with hw1
    set w2 : World := if !ch.is_empty then w1.mesh_chunk ch else w1 with hw2
    have hb : w2.gen_channel = rest ∧ w2.mesh_channel = w.mesh_channel ∧
        w2.gen_pending = w.gen_pending ∧ w2.mesh_in_process = w.mesh_in_process := by
      rw [hw2]
      split
      · exact ⟨rfl, rfl, rfl, rfl⟩
      · exact ⟨rfl, rfl, rfl, rfl⟩
    obtain ⟨hf1, hf2, hf3, hf4, -, -⟩ :=
      foldl_mesh_chunk_fields (w2.get_neigbour_chunks ch.grid_position) w2
    refine ⟨?_, ?_, ?_, ?_⟩
    · rw [hf1, hb.1]; rfl
    · rw [hf2, hb.2.1]
    · rw [hf3, hb.2.2.1]
    · rw [hf4, hb.2.2.2]

/-- Draining one meshing result pops at most the head of the meshing channel
and changes nothing else. -/
theorem drain_meshed_fields (w : World) :
    (w.drain_meshed).mesh_channel = w.mesh_channel.tail ∧
    (w.drain_meshed).gen_channel = w.gen_channel ∧
    (w.drain_meshed).gen_pending = w.gen_pending ∧
    (w.drain_meshed).mesh_in_process = w.mesh_in_process ∧
    (w.drain_meshed).gen_in_process = w.gen_in_process := by
  cases hq : w.mesh_channel with
  | nil => simp [World.drain_meshed, hq]
  | cons r rest => simp [World.drain_meshed, hq]

/-- A per-tick update never touches the meshing in-flight set (the source
never inserts into, removes from, or consults it). -/
theorem update_mesh_in_process (w : World) (camera_position : Vec3q)
    (chunk_size : UVec3) :
    (w.update camera_position chunk_size).mesh_in_process = w.mesh_in_process := by
  rw [World.update]
  have h3 := (drain_meshed_fields ((w.dispatch_phase camera_position
    chunk_size).drain_generated)).2.2.2.1
  have h2 := (drain_generated_fields (w.dispatch_phase camera_position chunk_size)).2.2.2
  have h1 : (w.dispatch_phase camera_position chunk_size).mesh_in_process =
      w.mesh_in_process := by
    rw [World.dispatch_phase, dispatch_foldl_spec _ _ (cube_coords_nodup _ _)]
  rw [h3, h2, h1]

/-- Worker completions never touch the meshing in-flight set. -/
theorem complete_mesh_in_process (gen : IVec3 → WChunk) (w : World) (p q : IVec3) :
    (w.complete_gen gen p).mesh_in_process = w.mesh_in_process ∧
    (w.complete_mesh q).mesh_in_process = w.mesh_in_process := by
  constructor
  · rw [World.complete_gen]; split <;> rfl
  · rw [World.complete_mesh]; split <;> rfl

/-- At every reachable state the meshing in-flight set is empty. -/
theorem reachable_mesh_in_process_empty (gen : IVec3 → WChunk) (w : World)
    (hw : Reachable gen w) : w.mesh_in_process = [] := by
  induction hw with
  | init rd => rfl
  | update cam cs _ ih => rw [update_mesh_in_process]; exact ih
  | complete_gen p _ ih => rw [(complete_mesh_in_process gen _ p p).1]; exact ih
  | complete_mesh p _ ih => rw [(complete_mesh_in_process gen _ p p).2]; exact ih

/-- C8: each per-tick update computes the cube of grid coordinates within
render distance of `floor(camera_position / chunk_size)`; it dispatches
exactly one generation job for every coordinate of the cube that is neither
resident nor already in the generation in-flight set (and no other), adding
each to the in-flight set; and it drains at most one generation result and at
most one meshing result. -/
theorem c8_update_dispatch_and_drain (w : World) (camera_position : Vec3q)
    (chunk_size : UVec3) :
    center_chunk_pos camera_position chunk_size =
      ⟨⌊camera_position.x / (chunk_size.x : ℚ)⌋,
       ⌊camera_position.y / (chunk_size.y : ℚ)⌋,
       ⌊camera_position.z / (chunk_size.z : ℚ)⌋⟩ ∧
    (w.update camera_position chunk_size).gen_pending =
      w.gen_pending ++ (cube_coords (center_chunk_pos camera_position chunk_size)
        w.render_distance).filter (wants_generation w) ∧
    ((cube_coords (center_chunk_pos camera_position chunk_size)
        w.render_distance).filter (wants_generation w)).Nodup ∧
    (∀ c ∈ cube_coords (center_chunk_pos camera_position chunk_size) w.render_distance,
      wants_generation w c = true →
        c ∈ (w.dispatch_phase camera_position chunk_size).gen_in_process) ∧
    (w.update camera_position chunk_size).gen_channel = w.gen_channel.tail ∧
    (w.update camera_position chunk_size).mesh_channel = w.mesh_channel.tail := by
  have hdp : w.dispatch_phase camera_position chunk_size =
      { w with
        gen_in_process := w.gen_in_process ++
          (cube_coords (center_chunk_pos camera_position chunk_size)
            w.render_distance).filter (wants_generation w)
        gen_pending := w.gen_pending ++
          (cube_coords (center_chunk_pos camera_position chunk_size)
            w.render_distance).filter (wants_generation w) } := by
    rw [World.dispatch_phase, dispatch_foldl_spec _ _ (cube_coords_nodup _ _)]
  refine ⟨?_, ?_, ?_, ?_, ?_, ?_⟩
  · simp [center_chunk_pos, div_nat_eq]
  · rw [World.update,
      (drain_meshed_fields _).2.2.1,
      (drain_generated_fields _).2.2.1, hdp]
  · exact List.Nodup.filter _ (cube_coords_nodup _ _)
  · intro c hc hw
    rw [hdp]
    simp only [List.mem_append]
    right
    rw [List.mem_filter]
    exact ⟨hc, hw⟩
  · rw [World.update,
      (drain_meshed_fields _).2.1,
      (drain_generated_fields _).1, hdp]
  · rw [World.update,
      (drain_meshed_fields _).1,
      (drain_generated_fields _).2.1, hdp]

/-- C8 (witness): one update of the fresh world with render distance 0 and
the camera at the origin dispatches exactly the generation job for (0,0,0)
and drains nothing. -/
theorem c8_update_dispatch_and_drain_witness :
    ((World.new 0).update cam_origin CHUNK_SIZE).gen_pending =
      (World.new 0).gen_pending ++
        (cube_coords (center_chunk_pos cam_origin CHUNK_SIZE)
          (World.new 0).render_distance).filter (wants_generation (World.new 0)) ∧
    (⟨0, 0, 0⟩ : IVec3) ∈
      ((World.new 0).dispatch_phase cam_origin CHUNK_SIZE).gen_in_process ∧
    ((World.new 0).update cam_origin CHUNK_SIZE).gen_channel =
      (World.new 0).gen_channel.tail :=
  ⟨(c8_update_dispatch_and_drain (World.new 0) cam_origin CHUNK_SIZE).2.1,
   (c8_update_dispatch_and_drain (World.new 0) cam_origin CHUNK_SIZE).2.2.2.1
     ⟨0, 0, 0⟩ (by decide) (by decide),
   (c8_update_dispatch_and_drain (World.new 0) cam_origin CHUNK_SIZE).2.2.2.2.1⟩

/-- C3 (counterexample): as stated — "a given grid coordinate is dispatched
at most once concurrently per stage ... meshing jobs are deduplicated via
their own in-flight set" — the claim is false: in a reachable state of the
pipeline (render distance 0, a generator producing single-Stone chunks), the
coordinate (0,0,0) has two meshing jobs in flight at once — its own first
meshing and the neighbour-triggered re-mesh dispatched while the first had
not completed. -/
theorem c3_meshing_dispatched_twice :
    ∃ w : World, Reachable gen_stone w ∧ 2 ≤ w.mesh_pending.count ⟨0, 0, 0⟩ := by
  refine ⟨c3_run, ?_, by decide⟩
  exact Reachable.update cam_x16 CHUNK_SIZE
    (Reachable.complete_gen ⟨1, 0, 0⟩
      (Reachable.update cam_x16 CHUNK_SIZE
        (Reachable.complete_gen ⟨0, 0, 0⟩
          (Reachable.update cam_origin CHUNK_SIZE
            (Reachable.init 0)))))

/-- C3 (amended): generation jobs are deduplicated — a coordinate is only
dispatched when it is not already in the generation in-flight set, each
wanted coordinate at most once per tick; meshing jobs are NOT deduplicated:
the meshing in-flight set is never updated or consulted (it stays empty at
every reachable state), and the same coordinate can be dispatched for meshing
more than once concurrently. -/
theorem c3_generation_dedup_no_meshing_dedup (gen : IVec3 → WChunk) (w : World)
    (camera_position : Vec3q) (chunk_size : UVec3) :
    (∀ c ∈ (cube_coords (center_chunk_pos camera_position chunk_size)
        w.render_distance).filter (wants_generation w), c ∉ w.gen_in_process) ∧
    ((cube_coords (center_chunk_pos camera_position chunk_size)
        w.render_distance).filter (wants_generation w)).Nodup ∧
    (w.update camera_position chunk_size).mesh_in_process = w.mesh_in_process ∧
    (Reachable gen w → w.mesh_in_process = []) := by
  refine ⟨?_, List.Nodup.filter _ (cube_coords_nodup _ _), update_mesh_in_process .., ?_⟩
  · intro c hc
    rw [List.mem_filter] at hc
    have hw := hc.2
    rw [wants_generation, Bool.and_eq_true] at hw
    intro hmem
    have := hw.2
    simp [hmem] at this
  · exact reachable_mesh_in_process_empty gen w

/-- C3 (witness): the amended properties at the fresh world with render
distance 3. -/
theorem c3_generation_dedup_no_meshing_dedup_witness :
    (World.new 3).mesh_in_process = [] ∧
    ((World.new 3).update cam_origin CHUNK_SIZE).mesh_in_process =
      (World.new 3).mesh_in_process :=
  ⟨(c3_generation_dedup_no_meshing_dedup gen_stone (World.new 3) cam_origin
      CHUNK_SIZE).2.2.2 (Reachable.init 3),
   (c3_generation_dedup_no_meshing_dedup gen_stone (World.new 3) cam_origin
      CHUNK_SIZE).2.2.1⟩
